import Mathlib

/-!
# Variable store: shallow embedding and verification

The repository ships a Python harness (`src/run.py`) that drives a compiled
variable-store library through a C ABI: `init`, `shutdown`, `make`, `mod`,
`remove`, `get_type`, `get_value_as_string`.  The store implementation itself
is not part of the visible sources, so the store is modelled here from the
specification (type model, mutability rules, error taxonomy, buffer contract),
while the harness helper `get_variable` and the concrete calls the harness
makes (in particular the mutability tag literals `"const"` / `"dynam"` it
passes to `make`) are embedded directly from `src/run.py`.
-/

set_option autoImplicit false

namespace VarStore

/-- The six value types of the store, per the spec type model (§3). -/
inductive Ty where
  | number
  | boolean
  | str
  | array
  | object
  | null
  deriving DecidableEq, Repr

/-- Mutability of an entry, fixed at creation (§3). -/
inductive Mutability where
  | const
  | dynamic
  deriving DecidableEq, Repr

/-- Modelled from the spec: a tagged union over number, boolean, string,
array, object and null (§3).  The store implementation is absent from the
sources; the number payload is represented by its validated decimal literal,
the stringification convention consistent with the observed round-trip of the
§8 scenario (`"120.5"` in, `"120.5"` out). -/
inductive Value where
  | number (lit : String)
  | boolean (b : Bool)
  | str (s : String)
  | arr (elems : List Value)
  | obj (fields : List (String × Value))
  | null

/-- The type tag of a value. -/
def Value.ty : Value → Ty
  | .number _ => .number
  | .boolean _ => .boolean
  | .str _ => .str
  | .arr _ => .array
  | .obj _ => .object
  | .null => .null

/-- An entry pairs a value with its mutability flag (§3). -/
structure Entry where
  value : Value
  mutability : Mutability

/-- Error taxonomy of §7, each surfaced as a distinct negative code. -/
inductive Err where
  | notFound
  | duplicateName
  | constViolation
  | parseError
  | invalidTag
  | bufferTooSmall
  | notInitialized
  deriving DecidableEq, Repr

/-- Modelled from the spec: distinct negative integer codes per error kind
(§7 fixes distinctness and negativity, not the concrete values). -/
def Err.code : Err → Int
  | .notFound => -1
  | .duplicateName => -2
  | .constViolation => -3
  | .parseError => -4
  | .invalidTag => -5
  | .bufferTooSmall => -6
  | .notInitialized => -7

/-- The numeric type tag returned by `get_type`
(0=number, 1=boolean, 2=string, 3=array, 4=object, 5=null, §6). -/
def tagCode : Ty → Int
  | .number => 0
  | .boolean => 1
  | .str => 2
  | .array => 3
  | .object => 4
  | .null => 5

/-- Modelled from the spec: the textual type tags accepted by `make`/`mod`
(§6: `number`, `boolean`, `string`, `array`, `object`, `null`). -/
def parseType (s : String) : Option Ty :=
  if s = "number" then some .number
  else if s = "boolean" then some .boolean
  else if s = "string" then some .str
  else if s = "array" then some .array
  else if s = "object" then some .object
  else if s = "null" then some .null
  else none

/-- Modelled from the spec: `make` accepts exactly two textual mutability
literals distinguishing constant vs dynamic entries (§6).  The literals
themselves are taken from the only code present, the harness `src/run.py`,
which passes `"const"` and `"dynam"` (lines 103–110) and whose run the §8
scenario records as succeeding. -/
def parseMut (s : String) : Option Mutability :=
  if s = "const" then some .const
  else if s = "dynam" then some .dynamic
  else none

/-- All characters are decimal digits. -/
def digitsOnly : List Char → Bool
  | [] => true
  | c :: r => c.isDigit && digitsOnly r

/-- Split a character list at the first dot, if any. -/
def splitAtDot : List Char → List Char × Option (List Char)
  | [] => ([], none)
  | c :: rest =>
    if c = '.' then ([], some rest)
    else
      let p := splitAtDot rest
      (c :: p.1, p.2)

/-- Modelled from the spec: a well-formed decimal number literal
(§4.1: "a decimal number text"), optionally signed, with an optional
fractional part. -/
def isNumberLit (s : String) : Bool :=
  let l := s.toList
  let l := match l with
    | '-' :: r => r
    | _ => l
  match splitAtDot l with
  | (a, none) => !a.isEmpty && digitsOnly a
  | (a, some b) => !a.isEmpty && digitsOnly a && !b.isEmpty && digitsOnly b

/-- Modelled from the spec: parsing a literal under a declared type (§4.1) —
decimal text for number, `"true"`/`"false"` for boolean, raw text for string,
`"null"` for null.  The literal grammar for array/object is left unspecified
by the spec (§9 open question), so no array/object literal parses: those
values are unreachable through the exported surface in this model. -/
def parseLiteral : Ty → String → Option Value
  | .number, lit => if isNumberLit lit then some (.number lit) else none
  | .boolean, lit =>
    if lit = "true" then some (.boolean true)
    else if lit = "false" then some (.boolean false)
    else none
  | .str, lit => some (.str lit)
  | .array, _ => none
  | .object, _ => none
  | .null, lit => if lit = "null" then some .null else none

/-- Modelled from the spec: the stringifier (§4.5).  Number renders its
stored decimal literal (the convention matching the §8 scenario), boolean
renders `"true"`/`"false"`, string renders the raw text, null renders
`"null"`.  For array/object §4.5 explicitly allows "a summary" (open
question); a fixed summary is used, and such values are anyway unreachable
in this model. -/
def render : Value → String
  | .number lit => lit
  | .boolean b => if b then "true" else "false"
  | .str s => s
  | .arr _ => "[array]"
  | .obj _ => "[object]"
  | .null => "null"

/-- The store's table: a mapping from name to entry (§3). -/
def Table := List (String × Entry)

/-- Look a name up in the table. -/
def lookupEntry : Table → String → Option Entry
  | [], _ => none
  | kv :: rest, name => if kv.1 = name then some kv.2 else lookupEntry rest name

/-- Replace the entry stored under `name` (used by `mod`). -/
def setEntry : Table → String → Entry → Table
  | [], _, _ => []
  | kv :: rest, name, e =>
    if kv.1 = name then (name, e) :: setEntry rest name e
    else kv :: setEntry rest name e

/-- Delete every binding of `name` (used by `remove`). -/
def removeEntry : Table → String → Table
  | [], _ => []
  | kv :: rest, name =>
    if kv.1 = name then removeEntry rest name
    else kv :: removeEntry rest name

/-- Lifecycle state of the ABI layer: `none` is Uninitialized, `some tbl`
is Ready with table `tbl` (§4.6). -/
def StoreState := Option Table

/-- Modelled from the spec: `init` installs an empty store and returns 0;
called when already initialized it returns a nonzero code (§4.6). -/
def init : StoreState → StoreState × Int
  | none => (some ([] : Table), 0)
  | some tbl => (some tbl, 1)

/-- Modelled from the spec: `shutdown` releases the store (§4.6); its ABI
signature returns nothing (§6), and on an uninitialized store it is modelled
as the safe no-op the spec's §9 open question recommends. -/
def shutdown : StoreState → StoreState := fun _ => none

/-- Modelled from the spec: `make(name, mutability, type, literal)` (§4.1).
Fails with `NotInitialized` before `init` (§7), with `DuplicateName` if the
name exists — always, regardless of the other arguments (§8) — with
`InvalidTag` on an unrecognized mutability or type tag (§7), with
`ParseError` on a malformed literal; otherwise inserts the new entry and
returns 0.  Atomic: on failure the table is unchanged. -/
def make (st : StoreState) (name mutTag tyTag lit : String) : StoreState × Int :=
  match st with
  | none => (none, Err.notInitialized.code)
  | some tbl =>
    match lookupEntry tbl name with
    | some _ => (some tbl, Err.duplicateName.code)
    | none => match parseMut mutTag with
      | none => (some tbl, Err.invalidTag.code)
      | some m => match parseType tyTag with
        | none => (some tbl, Err.invalidTag.code)
        | some ty => match parseLiteral ty lit with
          | none => (some tbl, Err.parseError.code)
          | some v => (some ((name, ⟨v, m⟩) :: tbl), 0)

/-- Modelled from the spec: `mod(name, type, literal)` (§4.2).  Fails with
`NotInitialized` before `init`, `NotFound` if the name is absent,
`ConstViolation` if the entry is Const (for any type/literal), `InvalidTag`
on a bad type tag, `ParseError` on a malformed literal; otherwise replaces
the value in place (the type may change, the mutability is kept). -/
def mod (st : StoreState) (name tyTag lit : String) : StoreState × Int :=
  match st with
  | none => (none, Err.notInitialized.code)
  | some tbl =>
    match lookupEntry tbl name with
    | none => (some tbl, Err.notFound.code)
    | some e =>
      if e.mutability = .const then (some tbl, Err.constViolation.code)
      else match parseType tyTag with
        | none => (some tbl, Err.invalidTag.code)
        | some ty => match parseLiteral ty lit with
          | none => (some tbl, Err.parseError.code)
          | some v => (some (setEntry tbl name ⟨v, e.mutability⟩), 0)

/-- Modelled from the spec: `remove(name)` (§4.3).  Fails with
`NotInitialized` before `init`, `NotFound` if absent, `ConstViolation` on a
Const entry; otherwise deletes the entry and returns 0. -/
def remove (st : StoreState) (name : String) : StoreState × Int :=
  match st with
  | none => (none, Err.notInitialized.code)
  | some tbl =>
    match lookupEntry tbl name with
    | none => (some tbl, Err.notFound.code)
    | some e =>
      if e.mutability = .const then (some tbl, Err.constViolation.code)
      else (some (removeEntry tbl name), 0)

/-- Modelled from the spec: `get_type(name)` (§4.4, §6) — the non-negative
type tag of the current value, or the negative `NotFound` code; side-effect
free (it is a pure function of the state). -/
def get_type (st : StoreState) (name : String) : Int :=
  match st with
  | none => Err.notInitialized.code
  | some tbl =>
    match lookupEntry tbl name with
    | none => Err.notFound.code
    | some e => tagCode e.value.ty

/-- Modelled from the spec: `get_value_as_string(name, buffer, capacity)`
(§4.5).  The caller's buffer is modelled as the `Option String` component:
`some s` means `s` plus a null terminator was written (so `s` occupies at
most `capacity - 1` bytes), `none` means nothing was written.  Returns the
number of bytes written, or `NotFound` / `BufferTooSmall` / `NotInitialized`
as negative codes; on `BufferTooSmall` nothing is written (the spec allows
"write nothing or a valid truncation"; write-nothing is chosen). -/
def get_value_as_string (st : StoreState) (name : String) (cap : Nat) :
    Int × Option String :=
  match st with
  | none => (Err.notInitialized.code, none)
  | some tbl =>
    match lookupEntry tbl name with
    | none => (Err.notFound.code, none)
    | some e =>
      let s := render e.value
      if s.utf8ByteSize + 1 ≤ cap then ((s.utf8ByteSize : Int), some s)
      else (Err.bufferTooSmall.code, none)

/-- `ZIG_TYPE_MAP` of `src/run.py` with its `.get(type_int, "unknown")`
fallback. -/
def zigTypeMap (t : Int) : String :=
  if t = 0 then "number"
  else if t = 1 then "boolean"
  else if t = 2 then "string"
  else if t = 3 then "array"
  else if t = 4 then "object"
  else if t = 5 then "null"
  else "unknown"

/-- The harness helper `get_variable` of `src/run.py` (lines 77–89):
calls `get_type`; on a negative code returns an error pair without calling
`get_value_as_string`; otherwise calls `get_value_as_string` with a fixed
256-byte buffer and, on a negative code, returns an error pair; otherwise
decodes the buffer.  The third component records whether
`get_value_as_string` was called. -/
def get_variable (st : StoreState) (name : String) : String × String × Bool :=
  let type_int := get_type st name
  if type_int < 0 then
    ("error",
     "Variable \x27" ++ name ++ "\x27 not found (code: " ++ toString type_int ++ ")",
     false)
  else
    let type_str := zigTypeMap type_int
    let buffer_size := 256
    let r := get_value_as_string st name buffer_size
    if r.1 < 0 then
      ("error", "Could not retrieve value (code: " ++ toString r.1 ++ ")", true)
    else
      (type_str, r.2.getD "", true)

/-- The store-touching operations of the exported surface, other than
`init`/`shutdown`, reified so that invariants can quantify over them
("any operation short of full process teardown").  `init` is included;
`shutdown` is the teardown the invariants exclude. -/
inductive Op where
  | make (name mutTag tyTag lit : String)
  | mod (name tyTag lit : String)
  | remove (name : String)
  | get_type (name : String)
  | get_value_as_string (name : String) (cap : Nat)
  | init
  deriving DecidableEq

/-- One exported call: the resulting state and its integer return value. -/
def step (st : StoreState) : Op → StoreState × Int
  | .make name mutTag tyTag lit => make st name mutTag tyTag lit
  | .mod name tyTag lit => mod st name tyTag lit
  | .remove name => remove st name
  | .get_type name => (st, get_type st name)
  | .get_value_as_string name cap => (st, (get_value_as_string st name cap).1)
  | .init => init st

/-! ## Table lemmas -/

theorem lookupEntry_cons_self (tbl : Table) (name : String) (e : Entry) :
    lookupEntry ((name, e) :: tbl) name = some e := by
  simp [lookupEntry]

theorem lookupEntry_cons_ne (tbl : Table) (n name : String) (e : Entry)
    (h : n ≠ name) :
    lookupEntry ((n, e) :: tbl) name = lookupEntry tbl name := by
  simp [lookupEntry, h]

theorem lookupEntry_set_ne (tbl : Table) (n name : String) (e : Entry)
    (h : n ≠ name) :
    lookupEntry (setEntry tbl n e) name = lookupEntry tbl name := by
  induction tbl with
  | nil => rfl
  | cons kv rest ih =>
    by_cases hk : kv.1 = n
    · simp [setEntry, lookupEntry, hk, h, ih]
    · by_cases hn : kv.1 = name
      · simp [setEntry, lookupEntry, hk, hn, Ne.symm h]
      · simp [setEntry, lookupEntry, hk, hn, ih]

theorem lookupEntry_remove_self (tbl : Table) (name : String) :
    lookupEntry (removeEntry tbl name) name = none := by
  induction tbl with
  | nil => rfl
  | cons kv rest ih =>
    by_cases hk : kv.1 = name
    · simp [removeEntry, hk, ih]
    · simp [removeEntry, lookupEntry, hk, ih]

theorem lookupEntry_remove_ne (tbl : Table) (n name : String) (h : n ≠ name) :
    lookupEntry (removeEntry tbl n) name = lookupEntry tbl name := by
  induction tbl with
  | nil => rfl
  | cons kv rest ih =>
    by_cases hk : kv.1 = n
    · simp [removeEntry, lookupEntry, hk, h, ih]
    · simp [removeEntry, lookupEntry, hk, ih]

/-! ## Parsing and rendering lemmas -/

/-- A parsed value renders back to exactly the literal it was parsed from. -/
theorem render_parseLiteral (ty : Ty) (lit : String) (v : Value)
    (h : parseLiteral ty lit = some v) : render v = lit := by
  cases ty with
  | number =>
    by_cases hn : isNumberLit lit
    · simp [parseLiteral, hn] at h
      rw [← h]; rfl
    · simp [parseLiteral, hn] at h
  | boolean =>
    by_cases ht : lit = "true"
    · simp [parseLiteral, ht] at h
      rw [← h, ht]; rfl
    · by_cases hf : lit = "false"
      · simp [parseLiteral, ht, hf] at h
        rw [← h, hf]; rfl
      · simp [parseLiteral, ht, hf] at h
  | str =>
    simp [parseLiteral] at h
    rw [← h]; rfl
  | array => simp [parseLiteral] at h
  | object => simp [parseLiteral] at h
  | null =>
    by_cases hn : lit = "null"
    · simp [parseLiteral, hn] at h
      rw [← h, hn]; rfl
    · simp [parseLiteral, hn] at h

/-- A parsed value carries the declared type tag. -/
theorem ty_parseLiteral (ty : Ty) (lit : String) (v : Value)
    (h : parseLiteral ty lit = some v) : v.ty = ty := by
  cases ty with
  | number =>
    by_cases hn : isNumberLit lit
    · simp [parseLiteral, hn] at h
      rw [← h]; rfl
    · simp [parseLiteral, hn] at h
  | boolean =>
    by_cases ht : lit = "true"
    · simp [parseLiteral, ht] at h
      rw [← h]; rfl
    · by_cases hf : lit = "false"
      · simp [parseLiteral, ht, hf] at h
        rw [← h]; rfl
      · simp [parseLiteral, ht, hf] at h
  | str =>
    simp [parseLiteral] at h
    rw [← h]; rfl
  | array => simp [parseLiteral] at h
  | object => simp [parseLiteral] at h
  | null =>
    by_cases hn : lit = "null"
    · simp [parseLiteral, hn] at h
      rw [← h]; rfl
    · simp [parseLiteral, hn] at h

/-- Every type tag returned by `get_type` for a present name is non-negative. -/
theorem tagCode_nonneg (t : Ty) : 0 ≤ tagCode t := by
  cases t <;> decide

/-! ## Sample data used by the witnesses -/

/-- The Const entry the harness creates for `"player_name"`. -/
def entryAlice : Entry := ⟨Value.str "Alice", Mutability.const⟩

/-- A one-entry table holding the Const entry `entryAlice`. -/
def tblAlice : Table := [("player_name", entryAlice)]

/-- The Dynamic entry the harness creates for `"score"`. -/
def entryScore : Entry := ⟨Value.number "120.5", Mutability.dynamic⟩

/-- A one-entry table holding the Dynamic entry `entryScore`. -/
def tblScore : Table := [("score", entryScore)]

/-! ## Claim theorems -/

/-- Claim C1, counterexample: `make("score","dynamic","number","120.5")` on a
fresh store does not return 0 — `"dynamic"` is not one of the two mutability
literals; the harness (src/run.py line 103) passes `"dynam"`, so `make` with
`"dynamic"` fails with `InvalidTag`. -/
theorem make_rejects_dynamic_tag :
    (make (some ([] : Table)) "score" "dynamic" "number" "120.5").2
        = Err.invalidTag.code ∧
    (make (some ([] : Table)) "score" "dynamic" "number" "120.5").2 ≠ 0 := by
  decide

/-- Claim C1, amended: the §8 scenario holds end to end with the mutability
tag `"dynam"` that the harness actually passes:
`make("score","dynam","number","120.5")` returns 0, after which `get_type`
returns 0 (the number tag) and `get_value_as_string` yields `"120.5"`; then
`mod("score","number","999.0")` returns 0 and a subsequent get yields
`"999.0"`. -/
theorem scenario_with_dynam_tag :
    (make (some ([] : Table)) "score" "dynam" "number" "120.5").2 = 0 ∧
    get_type (make (some ([] : Table)) "score" "dynam" "number" "120.5").1
        "score" = 0 ∧
    (get_value_as_string
        (make (some ([] : Table)) "score" "dynam" "number" "120.5").1
        "score" 256).2 = some "120.5" ∧
    (mod (make (some ([] : Table)) "score" "dynam" "number" "120.5").1
        "score" "number" "999.0").2 = 0 ∧
    (get_value_as_string
        (mod (make (some ([] : Table)) "score" "dynam" "number" "120.5").1
            "score" "number" "999.0").1
        "score" 256).2 = some "999.0" := by
  refine ⟨rfl, rfl, rfl, rfl, rfl⟩

/-- Claim C2: for every valid triple (name, type, literal) with the name
absent from the store, `make` succeeds, `get_type` on that name returns the
declared type's tag, and `get_value_as_string` (with any sufficient capacity)
yields exactly the original literal — an exact round-trip. -/
theorem make_get_roundtrip (tbl : Table) (name mutTag tyTag lit : String)
    (m : Mutability) (ty : Ty) (v : Value)
    (hm : parseMut mutTag = some m) (ht : parseType tyTag = some ty)
    (hl : parseLiteral ty lit = some v)
    (habs : lookupEntry tbl name = none) :
    (make (some tbl) name mutTag tyTag lit).2 = 0 ∧
    get_type (make (some tbl) name mutTag tyTag lit).1 name = tagCode ty ∧
    ∀ cap, lit.utf8ByteSize + 1 ≤ cap →
      get_value_as_string (make (some tbl) name mutTag tyTag lit).1 name cap
        = ((lit.utf8ByteSize : Int), some lit) := by
  have hstate : make (some tbl) name mutTag tyTag lit
      = (some ((name, ⟨v, m⟩) :: tbl), 0) := by
    simp [make, habs, hm, ht, hl]
  refine ⟨by rw [hstate], ?_, ?_⟩
  · rw [hstate]
    simp [get_type, lookupEntry_cons_self, ty_parseLiteral ty lit v hl]
  · intro cap hcap
    rw [hstate]
    simp [get_value_as_string, lookupEntry_cons_self,
      render_parseLiteral ty lit v hl, hcap]

/-- Claim C2, witness: the triple ("score", number, "120.5") on the empty
store. -/
theorem make_get_roundtrip_witness :
    lookupEntry ([] : Table) "score" = none ∧
    (make (some ([] : Table)) "score" "dynam" "number" "120.5").2 = 0 ∧
    get_type (make (some ([] : Table)) "score" "dynam" "number" "120.5").1
        "score" = tagCode Ty.number ∧
    get_value_as_string
        (make (some ([] : Table)) "score" "dynam" "number" "120.5").1
        "score" 256
      = (("120.5".utf8ByteSize : Int), some "120.5") := by
  have h := make_get_roundtrip [] "score" "dynam" "number" "120.5"
    Mutability.dynamic Ty.number (Value.number "120.5") rfl rfl rfl rfl
  exact ⟨rfl, h.1, h.2.1, h.2.2 256 (by decide)⟩

/-- Claim C3: `mod` on a Const entry returns `ConstViolation` for any type
tag and literal and leaves the whole table unchanged; more generally, a Const
entry survives every exported operation short of `shutdown` (the teardown):
after any `step`, the store is still Ready and the entry is still found
unchanged under its name. -/
theorem const_entry_immutable (tbl : Table) (name : String) (e : Entry)
    (hfind : lookupEntry tbl name = some e)
    (hconst : e.mutability = .const) :
    (∀ tyTag lit, mod (some tbl) name tyTag lit
        = (some tbl, Err.constViolation.code)) ∧
    ∀ op : Op, ∃ tbl2, (step (some tbl) op).1 = some tbl2 ∧
      lookupEntry tbl2 name = some e := by
  have hmod : ∀ tyTag lit, mod (some tbl) name tyTag lit
      = (some tbl, Err.constViolation.code) := by
    intro tyTag lit
    simp [mod, hfind, hconst]
  refine ⟨hmod, ?_⟩
  intro op
  cases op with
  | make n mt tt lit =>
    rcases hn : lookupEntry tbl n with _ | e2
    · have hne : n ≠ name := by
        intro hEq
        rw [hEq, hfind] at hn
        exact Option.noConfusion hn
      rcases hpm : parseMut mt with _ | m
      · exact ⟨tbl, by simp [step, make, hn, hpm], hfind⟩
      · rcases hpt : parseType tt with _ | ty
        · exact ⟨tbl, by simp [step, make, hn, hpm, hpt], hfind⟩
        · rcases hpl : parseLiteral ty lit with _ | v
          · exact ⟨tbl, by simp [step, make, hn, hpm, hpt, hpl], hfind⟩
          · refine ⟨(n, ⟨v, m⟩) :: tbl,
              by simp [step, make, hn, hpm, hpt, hpl], ?_⟩
            rw [lookupEntry_cons_ne tbl n name ⟨v, m⟩ hne]
            exact hfind
    · exact ⟨tbl, by simp [step, make, hn], hfind⟩
  | mod n tt lit =>
    by_cases hn : n = name
    · subst hn
      exact ⟨tbl, by simp [step, hmod tt lit], hfind⟩
    · rcases hl2 : lookupEntry tbl n with _ | e2
      · exact ⟨tbl, by simp [step, mod, hl2], hfind⟩
      · by_cases hc2 : e2.mutability = .const
        · exact ⟨tbl, by simp [step, mod, hl2, hc2], hfind⟩
        · rcases hpt : parseType tt with _ | ty
          · exact ⟨tbl, by simp [step, mod, hl2, hc2, hpt], hfind⟩
          · rcases hpl : parseLiteral ty lit with _ | v
            · exact ⟨tbl, by simp [step, mod, hl2, hc2, hpt, hpl], hfind⟩
            · refine ⟨setEntry tbl n ⟨v, e2.mutability⟩,
                by simp [step, mod, hl2, hc2, hpt, hpl], ?_⟩
              rw [lookupEntry_set_ne tbl n name ⟨v, e2.mutability⟩ hn]
              exact hfind
  | remove n =>
    by_cases hn : n = name
    · subst hn
      exact ⟨tbl, by simp [step, remove, hfind, hconst], hfind⟩
    · rcases hl2 : lookupEntry tbl n with _ | e2
      · exact ⟨tbl, by simp [step, remove, hl2], hfind⟩
      · by_cases hc2 : e2.mutability = .const
        · exact ⟨tbl, by simp [step, remove, hl2, hc2], hfind⟩
        · refine ⟨removeEntry tbl n,
            by simp [step, remove, hl2, hc2], ?_⟩
          rw [lookupEntry_remove_ne tbl n name hn]
          exact hfind
  | get_type n => exact ⟨tbl, rfl, hfind⟩
  | get_value_as_string n cap => exact ⟨tbl, rfl, hfind⟩
  | init => exact ⟨tbl, rfl, hfind⟩

/-- Claim C3, witness: the Const entry `"player_name" ↦ "Alice"` rejects
`mod` and survives a `remove` attempt. -/
theorem const_entry_immutable_witness :
    lookupEntry tblAlice "player_name" = some entryAlice ∧
    mod (some tblAlice) "player_name" "string" "Bob"
      = (some tblAlice, Err.constViolation.code) ∧
    ∃ tbl2, (step (some tblAlice) (Op.remove "player_name")).1 = some tbl2 ∧
      lookupEntry tbl2 "player_name" = some entryAlice := by
  have h := const_entry_immutable tblAlice "player_name" entryAlice rfl rfl
  exact ⟨rfl, h.1 "string" "Bob", h.2 (Op.remove "player_name")⟩

/-- Claim C4: `make` on a name already present returns `DuplicateName` —
whatever the mutability tag, type tag and literal — and leaves the whole
table (hence the existing entry) unchanged: no partial insertion. -/
theorem make_duplicate_name (tbl : Table) (name mt tt lit : String)
    (e : Entry) (hfind : lookupEntry tbl name = some e) :
    make (some tbl) name mt tt lit = (some tbl, Err.duplicateName.code) ∧
    lookupEntry ((make (some tbl) name mt tt lit).1.getD []) name = some e := by
  have hmk : make (some tbl) name mt tt lit
      = (some tbl, Err.duplicateName.code) := by
    simp [make, hfind]
  exact ⟨hmk, by rw [hmk]; exact hfind⟩

/-- Claim C4, witness: re-making `"player_name"` (even with a bad tag and a
different literal) is rejected and the table is untouched. -/
theorem make_duplicate_name_witness :
    lookupEntry tblAlice "player_name" = some entryAlice ∧
    make (some tblAlice) "player_name" "bogus" "string" "Bob"
      = (some tblAlice, Err.duplicateName.code) := by
  have h := make_duplicate_name tblAlice "player_name" "bogus" "string" "Bob"
    entryAlice rfl
  exact ⟨rfl, h.1⟩

/-- Claim C5: `remove` on a Dynamic entry succeeds and a subsequent
`get_type` returns `NotFound`; `remove` on a Const entry returns
`ConstViolation` and the entry remains retrievable (its `get_type` is
unchanged); `remove` on an absent name returns `NotFound`. -/
theorem remove_spec (tbl : Table) (name : String) :
    (∀ e, lookupEntry tbl name = some e → e.mutability = .dynamic →
      (remove (some tbl) name).2 = 0 ∧
      get_type (remove (some tbl) name).1 name = Err.notFound.code) ∧
    (∀ e, lookupEntry tbl name = some e → e.mutability = .const →
      remove (some tbl) name = (some tbl, Err.constViolation.code) ∧
      get_type (remove (some tbl) name).1 name = tagCode e.value.ty) ∧
    (lookupEntry tbl name = none →
      remove (some tbl) name = (some tbl, Err.notFound.code)) := by
  refine ⟨?_, ?_, ?_⟩
  · intro e hfind hdyn
    have hne : ¬ e.mutability = .const := by
      rw [hdyn]
      exact fun hc => Mutability.noConfusion hc
    have hrem : remove (some tbl) name = (some (removeEntry tbl name), 0) := by
      simp [remove, hfind, hne]
    refine ⟨by rw [hrem], ?_⟩
    rw [hrem]
    simp [get_type, lookupEntry_remove_self]
  · intro e hfind hconst
    have hrem : remove (some tbl) name
        = (some tbl, Err.constViolation.code) := by
      simp [remove, hfind, hconst]
    refine ⟨hrem, ?_⟩
    rw [hrem]
    simp [get_type, hfind]
  · intro h
    simp [remove, h]

/-- Claim C5, witness: removing the Dynamic `"score"` entry succeeds and the
name is gone afterwards. -/
theorem remove_spec_witness :
    lookupEntry tblScore "score" = some entryScore ∧
    (remove (some tblScore) "score").2 = 0 ∧
    get_type (remove (some tblScore) "score").1 "score"
      = Err.notFound.code := by
  have h := (remove_spec tblScore "score").1 entryScore rfl rfl
  exact ⟨rfl, h.1, h.2⟩

/-- Claim C6: for every state, name and capacity, whenever
`get_value_as_string` writes (`some s`) the written text occupies at most
`cap - 1` bytes (plus the terminator) and the returned code is the number of
bytes written; whenever it returns a negative code it writes nothing (never a
corrupt partial value); and when the name is present but the rendering does
not fit, the code is exactly `BufferTooSmall`. -/
theorem get_value_as_string_buffer_safe (st : StoreState) (name : String)
    (cap : Nat) :
    (∀ s, (get_value_as_string st name cap).2 = some s →
      s.utf8ByteSize + 1 ≤ cap ∧
      (get_value_as_string st name cap).1 = (s.utf8ByteSize : Int)) ∧
    ((get_value_as_string st name cap).1 < 0 →
      (get_value_as_string st name cap).2 = none) ∧
    ∀ tbl e, st = some tbl → lookupEntry tbl name = some e →
      ¬ (render e.value).utf8ByteSize + 1 ≤ cap →
      (get_value_as_string st name cap).1 = Err.bufferTooSmall.code := by
  cases st with
  | none =>
    refine ⟨?_, fun _ => rfl, ?_⟩
    · intro s hs
      exact Option.noConfusion hs
    · intro tbl e hst
      exact Option.noConfusion hst
  | some tbl =>
    rcases hl : lookupEntry tbl name with _ | e
    · refine ⟨?_, ?_, ?_⟩
      · intro s hs
        simp [get_value_as_string, hl] at hs
      · intro _
        simp [get_value_as_string, hl]
      · intro tbl2 e2 hst hl2
        rw [(Option.some.injEq _ _).mp hst] at hl
        rw [hl] at hl2
        exact Option.noConfusion hl2
    · by_cases hfit : (render e.value).utf8ByteSize + 1 ≤ cap
      · have hres : get_value_as_string (some tbl) name cap
            = (((render e.value).utf8ByteSize : Int), some (render e.value)) := by
          simp [get_value_as_string, hl, hfit]
        refine ⟨?_, ?_, ?_⟩
        · intro s hs
          rw [hres] at hs
          have hse : render e.value = s := (Option.some.injEq _ _).mp hs
          rw [← hse, hres]
          exact ⟨hfit, rfl⟩
        · intro hneg
          rw [hres] at hneg
          exact absurd hneg (by omega)
        · intro tbl2 e2 hst hl2 hnofit
          rw [(Option.some.injEq _ _).mp hst] at hl
          rw [hl] at hl2
          rw [← (Option.some.injEq _ _).mp hl2] at hnofit
          exact absurd hfit hnofit
      · have hres : get_value_as_string (some tbl) name cap
            = (Err.bufferTooSmall.code, none) := by
          simp [get_value_as_string, hl, hfit]
        refine ⟨?_, fun _ => by rw [hres], ?_⟩
        · intro s hs
          rw [hres] at hs
          exact Option.noConfusion hs
        · intro _ _ _ _ _
          rw [hres]

/-- Claim C6, witness: a 3-byte buffer is too small for `"120.5"`: the call
reports `BufferTooSmall` and writes nothing. -/
theorem get_value_as_string_buffer_safe_witness :
    (get_value_as_string (some tblScore) "score" 3).1
      = Err.bufferTooSmall.code ∧
    (get_value_as_string (some tblScore) "score" 3).2 = none := by
  have h := get_value_as_string_buffer_safe (some tblScore) "score" 3
  have hcode := h.2.2 tblScore entryScore rfl rfl (by decide)
  exact ⟨hcode, h.2.1 (by rw [hcode]; decide)⟩

/-- Claim C7: every exported operation is atomic with respect to the store:
whenever it returns a nonzero (in particular, any error) code, the resulting
state — the table and every entry in it — is exactly the state before the
call. -/
theorem operations_atomic (st : StoreState) (op : Op)
    (h : (step st op).2 ≠ 0) : (step st op).1 = st := by
  cases op with
  | make n mt tt lit =>
    cases st with
    | none => rfl
    | some tbl =>
      rcases hl : lookupEntry tbl n with _ | e2
      · rcases hpm : parseMut mt with _ | m
        · simp [step, make, hl, hpm]
        · rcases hpt : parseType tt with _ | ty
          · simp [step, make, hl, hpm, hpt]
          · rcases hpl : parseLiteral ty lit with _ | v
            · simp [step, make, hl, hpm, hpt, hpl]
            · exact absurd (by simp [step, make, hl, hpm, hpt, hpl]) h
      · simp [step, make, hl]
  | mod n tt lit =>
    cases st with
    | none => rfl
    | some tbl =>
      rcases hl : lookupEntry tbl n with _ | e2
      · simp [step, mod, hl]
      · by_cases hc : e2.mutability = .const
        · simp [step, mod, hl, hc]
        · rcases hpt : parseType tt with _ | ty
          · simp [step, mod, hl, hc, hpt]
          · rcases hpl : parseLiteral ty lit with _ | v
            · simp [step, mod, hl, hc, hpt, hpl]
            · exact absurd (by simp [step, mod, hl, hc, hpt, hpl]) h
  | remove n =>
    cases st with
    | none => rfl
    | some tbl =>
      rcases hl : lookupEntry tbl n with _ | e2
      · simp [step, remove, hl]
      · by_cases hc : e2.mutability = .const
        · simp [step, remove, hl, hc]
        · exact absurd (by simp [step, remove, hl, hc]) h
  | get_type n => rfl
  | get_value_as_string n cap => rfl
  | init =>
    cases st with
    | none => exact absurd rfl h
    | some tbl => rfl

/-- Claim C7, witness: the failing `remove` of the Const `"player_name"`
(code `ConstViolation` ≠ 0) leaves the state exactly as before. -/
theorem operations_atomic_witness :
    (step (some tblAlice) (Op.remove "player_name")).1 = some tblAlice :=
  operations_atomic (some tblAlice) (Op.remove "player_name") (by decide)

/-- Claim C8: the lifecycle state machine: `init` takes Uninitialized to
Ready (returning 0), `shutdown` takes any state to Uninitialized, and every
other exported operation invoked in the Uninitialized state fails cleanly
with the `NotInitialized` code — in particular it does not succeed (its code
is nonzero) — and leaves the state Uninitialized. -/
theorem lifecycle_state_machine :
    init none = (some ([] : Table), 0) ∧
    (∀ st, shutdown st = none) ∧
    ∀ op : Op, op ≠ Op.init →
      (step none op).1 = none ∧
      (step none op).2 = Err.notInitialized.code ∧
      (step none op).2 ≠ 0 := by
  refine ⟨rfl, fun _ => rfl, ?_⟩
  intro op hop
  cases op with
  | make n mt tt lit =>
    exact ⟨rfl, rfl, (by decide : Err.notInitialized.code ≠ 0)⟩
  | mod n tt lit =>
    exact ⟨rfl, rfl, (by decide : Err.notInitialized.code ≠ 0)⟩
  | remove n =>
    exact ⟨rfl, rfl, (by decide : Err.notInitialized.code ≠ 0)⟩
  | get_type n =>
    exact ⟨rfl, rfl, (by decide : Err.notInitialized.code ≠ 0)⟩
  | get_value_as_string n cap =>
    exact ⟨rfl, rfl, (by decide : Err.notInitialized.code ≠ 0)⟩
  | init => exact absurd rfl hop

/-- Claim C8, witness: `make` invoked before `init` fails with
`NotInitialized` and the state stays Uninitialized. -/
theorem lifecycle_state_machine_witness :
    (step none (Op.make "score" "dynam" "number" "120.5")).1 = none ∧
    (step none (Op.make "score" "dynam" "number" "120.5")).2
      = Err.notInitialized.code ∧
    (step none (Op.make "score" "dynam" "number" "120.5")).2 ≠ 0 :=
  lifecycle_state_machine.2.2 (Op.make "score" "dynam" "number" "120.5")
    (by decide)

/-- Claim C9: `get_type` on a present name returns the non-negative tag of
the current value under the fixed mapping 0=number, 1=boolean, 2=string,
3=array, 4=object, 5=null; on an absent name it returns the negative
`NotFound` code; and the call leaves the store untouched (it is side-effect
free). -/
theorem get_type_spec (tbl : Table) (name : String) :
    (∀ e, lookupEntry tbl name = some e →
      get_type (some tbl) name = tagCode e.value.ty ∧
      0 ≤ tagCode e.value.ty) ∧
    (lookupEntry tbl name = none →
      get_type (some tbl) name = Err.notFound.code ∧
      Err.notFound.code < 0) ∧
    (tagCode .number = 0 ∧ tagCode .boolean = 1 ∧ tagCode .str = 2 ∧
      tagCode .array = 3 ∧ tagCode .object = 4 ∧ tagCode .null = 5) ∧
    (step (some tbl) (Op.get_type name)).1 = some tbl := by
  refine ⟨?_, ?_, by decide, rfl⟩
  · intro e hfind
    exact ⟨by simp [get_type, hfind], tagCode_nonneg e.value.ty⟩
  · intro h
    exact ⟨by simp [get_type, h], by decide⟩

/-- Claim C9, witness: `get_type` on the stored `"score"` number entry
returns its tag, 0. -/
theorem get_type_spec_witness :
    lookupEntry tblScore "score" = some entryScore ∧
    get_type (some tblScore) "score" = tagCode entryScore.value.ty ∧
    0 ≤ tagCode entryScore.value.ty := by
  have h := (get_type_spec tblScore "score").1 entryScore rfl
  exact ⟨rfl, h.1, h.2⟩

/-- Claim C10: the harness helper `get_variable` returns an error pair
whenever `get_type` is negative — without calling `get_value_as_string`
(third component `false`) — and whenever `get_value_as_string` (always
called with the fixed capacity 256) is negative; it decodes the buffer only
when both succeed; and any present value whose rendering needs 256 bytes or
more is surfaced as an error, never as a partial value. -/
theorem get_variable_spec (st : StoreState) (name : String) :
    (get_type st name < 0 →
      (get_variable st name).1 = "error" ∧
      (get_variable st name).2.2 = false) ∧
    (0 ≤ get_type st name → (get_value_as_string st name 256).1 < 0 →
      (get_variable st name).1 = "error" ∧
      (get_variable st name).2.2 = true) ∧
    (0 ≤ get_type st name → 0 ≤ (get_value_as_string st name 256).1 →
      get_variable st name
        = (zigTypeMap (get_type st name),
           (get_value_as_string st name 256).2.getD "", true)) ∧
    ∀ tbl e, st = some tbl → lookupEntry tbl name = some e →
      256 ≤ (render e.value).utf8ByteSize →
      (get_variable st name).1 = "error" := by
  by_cases hT : get_type st name < 0
  · have hv : (get_variable st name).1 = "error" ∧
        (get_variable st name).2.2 = false := by
      constructor <;> simp [get_variable, hT]
    refine ⟨fun _ => hv, ?_, ?_, ?_⟩
    · intro h0 _
      exact absurd hT (not_lt.mpr h0)
    · intro h0 _
      exact absurd hT (not_lt.mpr h0)
    · intro _ _ _ _ _
      exact hv.1
  · by_cases hR : (get_value_as_string st name 256).1 < 0
    · have hv : (get_variable st name).1 = "error" ∧
          (get_variable st name).2.2 = true := by
        constructor <;> simp [get_variable, hT, hR]
      refine ⟨fun h => absurd h hT, fun _ _ => hv, ?_, ?_⟩
      · intro _ h0
        exact absurd hR (not_lt.mpr h0)
      · intro _ _ _ _ _
        exact hv.1
    · have hv : get_variable st name
          = (zigTypeMap (get_type st name),
             (get_value_as_string st name 256).2.getD "", true) := by
        simp [get_variable, hT, hR]
      refine ⟨fun h => absurd h hT, fun _ h => absurd h hR,
        fun _ _ => hv, ?_⟩
      intro tbl e hst hfind hbig
      rw [hst] at hR
      have hnofit : ¬ (render e.value).utf8ByteSize + 1 ≤ 256 := by omega
      have hcode : (get_value_as_string (some tbl) name 256).1
          = Err.bufferTooSmall.code := by
        simp [get_value_as_string, hfind, hnofit]
      rw [hcode] at hR
      exact absurd (by decide) hR

/-- Claim C10, witness: an absent name makes `get_variable` return an error
pair without calling `get_value_as_string`. -/
theorem get_variable_spec_witness :
    get_type (some tblAlice) "ghost" < 0 ∧
    (get_variable (some tblAlice) "ghost").1 = "error" ∧
    (get_variable (some tblAlice) "ghost").2.2 = false := by
  have h := (get_variable_spec (some tblAlice) "ghost").1 (by decide)
  exact ⟨by decide, h.1, h.2⟩

end VarStore
